import Mathlib

/-!
Verification of the outbound email campaign engine of `hr-message-backend`
(`internals/services/email_service.go`), as a shallow embedding.

Modelling conventions:
* Database rows (`Contact`, the user's credential fields, `Template`) are
  structures mirroring the fields the service reads.
* The SMTP transport is an oracle `transport : Nat → Bool` giving the
  outcome of the attempt made at loop index `i` (true = relay accepted).
* The per-recipient re-read `Contact.FindUnique` performed inside the
  campaign goroutine is an oracle `recheck : Nat → Option Contact`
  (`none` models a query error); it is an oracle because the row can be
  edited concurrently while the detached loop runs.
* A run is reified as a trace of `Event`s: send attempts, `IsSent` updates
  and `time.Sleep` calls, in program order.
-/

namespace HrMsg

/-- Embedding of Go `strings.ReplaceAll` on rune lists, fuel-indexed so the
recursion is structural (the fuel is the length of the subject string, which
bounds the number of steps since a non-empty pattern consumes at least one
character per step). -/
def replaceAllFuel (pat rep : List Char) : Nat → List Char → List Char
  | _, [] => []
  | 0, s => s
  | fuel + 1, c :: rest =>
    if pat.isPrefixOf (c :: rest) then
      rep ++ replaceAllFuel pat rep fuel ((c :: rest).drop pat.length)
    else
      c :: replaceAllFuel pat rep fuel rest

/-- Go `strings.ReplaceAll s pat rep`. The empty-pattern case follows Go:
the replacement is inserted before every rune and at the end. -/
def goReplaceAll (s pat rep : String) : String :=
  match pat.data with
  | [] => ⟨rep.data ++ s.data.flatMap (fun c => c :: rep.data)⟩
  | _ :: _ => ⟨replaceAllFuel pat.data rep.data s.data.length s.data⟩

/-- Row of the `Contact` table, restricted to the fields the email service
reads. `isSent` is the persisted delivery state (false = Pending, true =
Sent). -/
structure Contact where
  id : Nat
  name : String
  companyName : String
  email : String
  isSent : Bool
  deriving Repr, DecidableEq

/-- Owner/account fields the email service reads. The two credential fields
are `Option` because they are nullable columns (`ok1`/`ok2` in Go). -/
structure User where
  name : String
  professionalEmail : Option String
  mailAppPassword : Option String
  deriving Repr, DecidableEq

/-- Template fields the campaign uses. -/
structure Template where
  subject : String
  body : String
  deriving Repr, DecidableEq

/-- Go `models.SendEmailRequest`, minus attachment paths (unused by the
campaign paths under study). -/
structure SendEmailRequest where
  senderEmail : String
  senderPassword : String
  recipientEmail : String
  subject : String
  body : String
  sendToAll : Bool
  deriving Repr, DecidableEq

/-- Observable actions of a run. `send cid req ok` is one `SendEmail` call
made for the contact with id `cid` (outcome `ok`); `markSent cid` is the
`IsSent.Set(true)` update; `sleep s` is `time.Sleep` of `s` seconds. -/
inductive Event where
  | send (contactId : Nat) (req : SendEmailRequest) (ok : Bool)
  | markSent (contactId : Nat)
  | sleep (seconds : Nat)
  deriving Repr, DecidableEq

/-- Pacing delay of the detached campaign loop: `time.Sleep(2 * time.Minute)`. -/
def campaignDelaySeconds : Nat := 120

/-- Pacing delay of the synchronous send-to-all loop: `time.Sleep(2 * time.Second)`. -/
def sendToAllDelaySeconds : Nat := 2

/-- Body preparation of `StartEmailCampaign` (lines 128-132): three
`strings.ReplaceAll` calls on the template body, substituting the snapshot
contact's name and company and the owner's name. -/
def composeBody (template : Template) (userName : String) (contact : Contact) : String :=
  goReplaceAll
    (goReplaceAll
      (goReplaceAll template.body "{name}" contact.name)
      "{company}" contact.companyName)
    "{hr_name}" userName

/-- Request built for one campaign recipient (lines 135-141): credentials
from the owner, recipient address and body from the snapshot contact, the
subject taken verbatim from the template. `sendToAll` is the Go zero value. -/
def campaignRequest (professionalEmail mailAppPassword : String) (template : Template)
    (userName : String) (contact : Contact) : SendEmailRequest :=
  { senderEmail := professionalEmail
    senderPassword := mailAppPassword
    recipientEmail := contact.email
    subject := template.subject
    body := composeBody template userName contact
    sendToAll := false }

/-- The detached goroutine of `StartEmailCampaign` (lines 119-162), as a
trace over the snapshot list of contacts. At index `i`: re-read the row
(`recheck i`); on query error or an already-sent row, `continue` (no event,
no sleep); otherwise compose from the snapshot, send, record the `IsSent`
update on success, and sleep the pacing delay. -/
def campaignLoop (professionalEmail mailAppPassword : String) (template : Template)
    (userName : String) (recheck : Nat → Option Contact) (transport : Nat → Bool) :
    Nat → List Contact → List Event
  | _, [] => []
  | i, contact :: rest =>
    match recheck i with
    | none =>
        campaignLoop professionalEmail mailAppPassword template userName recheck transport
          (i + 1) rest
    | some current =>
        if current.isSent then
          campaignLoop professionalEmail mailAppPassword template userName recheck transport
            (i + 1) rest
        else
          Event.send contact.id
              (campaignRequest professionalEmail mailAppPassword template userName contact)
              (transport i) ::
            ((if transport i then [Event.markSent contact.id] else []) ++
              Event.sleep campaignDelaySeconds ::
                campaignLoop professionalEmail mailAppPassword template userName recheck
                  transport (i + 1) rest)

/-- Data captured by the goroutine closure when `StartEmailCampaign` accepts. -/
structure CampaignJob where
  professionalEmail : String
  mailAppPassword : String
  template : Template
  userName : String
  pending : List Contact
  deriving Repr, DecidableEq

/-- Run the detached job (the goroutine body) against the two oracles. -/
def CampaignJob.run (job : CampaignJob) (recheck : Nat → Option Contact)
    (transport : Nat → Bool) : List Event :=
  campaignLoop job.professionalEmail job.mailAppPassword job.template job.userName
    recheck transport 0 job.pending

/-- Synchronous part of `StartEmailCampaign` (lines 75-166). Inputs: the
user row (`none` = fetch error), the template row (`none` = fetch
error/not found), and the owner's contact rows; the pending set is the
`IsSent = false` filter of the latter, mirroring the `FindMany` query.
Returns the events emitted before the function returns (none: the loop is
deferred to the goroutine) and either an error or the accepted job
(`none` when there is nothing to send: the goroutine is never spawned). -/
def startEmailCampaign (user : Option User) (template : Option Template)
    (contacts : List Contact) : List Event × Except String (Option CampaignJob) :=
  match user with
  | none => ([], Except.error "failed to fetch user")
  | some u =>
    if u.professionalEmail.getD "" = "" ∨ u.mailAppPassword.getD "" = "" then
      ([], Except.error "user email credentials not configured")
    else
      match template with
      | none => ([], Except.error "failed to fetch template")
      | some t =>
        let pending := contacts.filter (fun c => !c.isSent)
        if pending.isEmpty then
          ([], Except.ok none)
        else
          ([], Except.ok (some
            { professionalEmail := u.professionalEmail.getD ""
              mailAppPassword := u.mailAppPassword.getD ""
              template := t
              userName := u.name
              pending := pending }))

/-- Loop of the `SendToAll` branch of `SendEmailForUser` (lines 283-305):
attempt each contact of the full list in order; the first transport failure
returns that failure immediately; after a success, sleep the short pacing
delay unless this was the last index. -/
def sendToAllLoop (req : SendEmailRequest) (transport : Nat → Bool) (total : Nat) :
    Nat → List Contact → List Event × Except String Unit
  | _, [] => ([], Except.ok ())
  | i, contact :: rest =>
    let emailReq := { req with recipientEmail := contact.email }
    if transport i then
      let tail := sendToAllLoop req transport total (i + 1) rest
      (Event.send contact.id emailReq true ::
        ((if i < total - 1 then [Event.sleep sendToAllDelaySeconds] else []) ++ tail.1),
       tail.2)
    else
      ([Event.send contact.id emailReq false],
       Except.error ("failed to send to " ++ contact.email))

/-- The synchronous `SendEmailForUser` (lines 250-314). Inputs: the user
row, the owner's full contact list (the `SendToAll` fetch has no
delivery-state filter), the caller's request and the transport oracle.
The single-message branch sends to the request's own recipient; its event
carries contact id 0 since no contact row is involved. -/
def sendEmailForUser (user : Option User) (contacts : List Contact)
    (req : SendEmailRequest) (transport : Nat → Bool) :
    List Event × Except String Unit :=
  match user with
  | none => ([], Except.error "failed to fetch user")
  | some u =>
    if u.professionalEmail.getD "" = "" ∨ u.mailAppPassword.getD "" = "" then
      ([], Except.error "user email credentials not configured. Please configure them in settings")
    else
      let req2 := { req with senderEmail := u.professionalEmail.getD ""
                             senderPassword := u.mailAppPassword.getD "" }
      if req2.sendToAll then
        sendToAllLoop req2 transport contacts.length 0 contacts
      else
        if transport 0 then
          ([Event.send 0 req2 true], Except.ok ())
        else
          ([Event.send 0 req2 false], Except.error "failed to send email")

/-- Replay the persisted `IsSent` writes of a trace over an initial
delivery-state table (contact id → stored `isSent`). -/
def applyEvents (db : Nat → Bool) : List Event → (Nat → Bool)
  | [] => db
  | Event.markSent cid :: rest =>
      applyEvents (fun x => if x = cid then true else db x) rest
  | _ :: rest => applyEvents db rest

/-- An event is a send attempt. -/
def isSend : Event → Bool
  | Event.send _ _ _ => true
  | _ => false

/-- An event is a send attempt or a pacing sleep. -/
def isSendOrSleep : Event → Bool
  | Event.send _ _ _ => true
  | Event.sleep _ => true
  | _ => false

/-- An event is a pacing sleep. -/
def isSleep : Event → Bool
  | Event.sleep _ => true
  | _ => false

/-- Checker for the pacing pattern of the campaign trace restricted to
sends and sleeps: every attempt is immediately followed by exactly one
pacing sleep of the campaign delay — so no sleep precedes the first
attempt, consecutive attempts are separated by the delay, and a sleep also
follows the last attempt. -/
def sendThenSleep : List Event → Bool
  | [] => true
  | Event.send _ _ _ :: Event.sleep d :: rest =>
      d == campaignDelaySeconds && sendThenSleep rest
  | _ => false

/-- Expected sequence of send attempts of a campaign run in which every
re-check reports the recipient still pending: one attempt per snapshot
contact, in list order, with the outcome given by the transport oracle at
that index. -/
def attemptEvents (pe mp : String) (t : Template) (un : String) (transport : Nat → Bool) :
    Nat → List Contact → List Event
  | _, [] => []
  | i, c :: rest =>
      Event.send c.id (campaignRequest pe mp t un c) (transport i) ::
        attemptEvents pe mp t un transport (i + 1) rest

/-- Concrete pending recipient used in witness runs. -/
def annContact : Contact :=
  { id := 1, name := "Ann", companyName := "Acme", email := "ann@acme.test", isSent := false }

/-- A second concrete pending recipient. -/
def bobContact : Contact :=
  { id := 2, name := "Bob", companyName := "Bcorp", email := "bob@bcorp.test", isSent := false }

/-- A recipient row already marked Sent, as a concurrent edit would leave it. -/
def annSent : Contact := { annContact with isSent := true }

/-- A recipient row with entirely different non-state fields, for the
snapshot-determinism witness. -/
def zedContact : Contact :=
  { id := 9, name := "Zed", companyName := "Zinc", email := "zed@zinc.test", isSent := false }

/-- Five pending recipients for the partial-failure scenario. -/
def fiveContacts : List Contact :=
  [{ id := 1, name := "R1", companyName := "C1", email := "r1@x.test", isSent := false },
   { id := 2, name := "R2", companyName := "C2", email := "r2@x.test", isSent := false },
   { id := 3, name := "R3", companyName := "C3", email := "r3@x.test", isSent := false },
   { id := 4, name := "R4", companyName := "C4", email := "r4@x.test", isSent := false },
   { id := 5, name := "R5", companyName := "C5", email := "r5@x.test", isSent := false }]

/-- Concrete template whose subject and body both carry a placeholder. -/
def demoTemplate : Template := { subject := "Hello {name}", body := "Hi {name} at {company}" }

/-- Owner with configured credentials. -/
def demoUser : User :=
  { name := "HR", professionalEmail := some "hr@corp.test", mailAppPassword := some "pw" }

/-- Send-to-all request fixture. -/
def demoSendAllReq : SendEmailRequest :=
  { senderEmail := "", senderPassword := "", recipientEmail := "", subject := "S",
    body := "B", sendToAll := true }

section Lemmas

variable {pe mp un : String} {t : Template} {recheck : Nat → Option Contact}
variable {transport : Nat → Bool}

/-- Send events of a campaign trace all originate from a snapshot contact:
the request is exactly `campaignRequest` of that contact. -/
theorem send_mem_campaignLoop {cid : Nat} {req : SendEmailRequest} {ok : Bool} :
    ∀ {i : Nat} {cs : List Contact},
      Event.send cid req ok ∈ campaignLoop pe mp t un recheck transport i cs →
      ∃ c ∈ cs, req = campaignRequest pe mp t un c ∧ cid = c.id := by
  intro i cs
  induction cs generalizing i with
  | nil => simp [campaignLoop]
  | cons c rest ih =>
    intro hmem
    rcases hre : recheck i with _ | cur
    · simp only [campaignLoop, hre] at hmem
      rcases ih hmem with ⟨c0, hc0, hreq, hcid⟩
      exact ⟨c0, List.mem_cons_of_mem _ hc0, hreq, hcid⟩
    · simp only [campaignLoop, hre] at hmem
      by_cases hs : cur.isSent
      · rw [if_pos hs] at hmem
        rcases ih hmem with ⟨c0, hc0, hreq, hcid⟩
        exact ⟨c0, List.mem_cons_of_mem _ hc0, hreq, hcid⟩
      · rw [if_neg hs] at hmem
        rcases List.mem_cons.1 hmem with hhead | htail
        · cases hhead
          exact ⟨c, List.mem_cons_self _ _, rfl, rfl⟩
        · rcases List.mem_append.1 htail with hupd | hrest
          · rcases hb : transport i with _ | _ <;> rw [hb] at hupd <;> simp at hupd
          · rcases List.mem_cons.1 hrest with hsl | hrest2
            · cases hsl
            · rcases ih hrest2 with ⟨c0, hc0, hreq, hcid⟩
              exact ⟨c0, List.mem_cons_of_mem _ hc0, hreq, hcid⟩

/-- A contact id receives an `IsSent` update in a campaign trace exactly
when the transport succeeded on a send attempt for that id. -/
theorem markSent_iff_send_true {cid : Nat} :
    ∀ {i : Nat} {cs : List Contact},
      (Event.markSent cid ∈ campaignLoop pe mp t un recheck transport i cs ↔
        ∃ req, Event.send cid req true ∈ campaignLoop pe mp t un recheck transport i cs) := by
  intro i cs
  induction cs generalizing i with
  | nil => simp [campaignLoop]
  | cons c rest ih =>
    rcases hre : recheck i with _ | cur
    · simp only [campaignLoop, hre]; exact ih
    · simp only [campaignLoop, hre]
      by_cases hs : cur.isSent
      · rw [if_pos hs]; exact ih
      · rw [if_neg hs]
        rcases hb : transport i with _ | _
        · simp only [if_neg (by simp : ¬ (false = true)), List.nil_append,
            List.mem_cons]
          constructor
          · intro h
            rcases h with h | h | h
            · cases h
            · cases h
            · rcases ih.1 h with ⟨req, hreq⟩
              exact ⟨req, Or.inr (Or.inr hreq)⟩
          · intro h
            rcases h with ⟨req, hreq⟩
            rcases hreq with h | h | h
            · cases h
            · cases h
            · exact Or.inr (Or.inr (ih.2 ⟨req, h⟩))
        · simp only [reduceIte, List.cons_append, List.nil_append, List.mem_cons]
          constructor
          · intro h
            rcases h with h | h | h | h
            · cases h
            · cases h
              exact ⟨campaignRequest pe mp t un c, Or.inl rfl⟩
            · cases h
            · rcases ih.1 h with ⟨req, hreq⟩
              exact ⟨req, Or.inr (Or.inr (Or.inr hreq))⟩
          · intro h
            rcases h with ⟨req, hreq⟩
            rcases hreq with h | h | h | h
            · cases h
              exact Or.inr (Or.inl rfl)
            · cases h
            · cases h
            · exact Or.inr (Or.inr (Or.inr (ih.2 ⟨req, h⟩)))

/-- Replaying a trace sets a contact id to Sent exactly when it was Sent
initially or the trace contains an `IsSent` update for it. -/
theorem applyEvents_eq_true_iff {db : Nat → Bool} {trace : List Event} {cid : Nat} :
    applyEvents db trace cid = true ↔ (db cid = true ∨ Event.markSent cid ∈ trace) := by
  induction trace generalizing db with
  | nil => simp [applyEvents]
  | cons e rest ih =>
    cases e with
    | send c r o => simp [applyEvents, ih]
    | sleep s => simp [applyEvents, ih]
    | markSent c =>
      rw [applyEvents]
      rw [ih]
      by_cases hc : cid = c
      · subst hc; simp
      · simp [hc]

/-- Pacing structure of any campaign trace: restricted to sends and sleeps,
the trace is a sequence of send-then-sleep pairs with the campaign delay. -/
theorem sendThenSleep_campaignLoop :
    ∀ {i : Nat} {cs : List Contact},
      sendThenSleep ((campaignLoop pe mp t un recheck transport i cs).filter isSendOrSleep)
        = true := by
  intro i cs
  induction cs generalizing i with
  | nil => simp [campaignLoop, sendThenSleep]
  | cons c rest ih =>
    rcases hre : recheck i with _ | cur
    · simp only [campaignLoop, hre]; exact ih
    · simp only [campaignLoop, hre]
      by_cases hs : cur.isSent
      · rw [if_pos hs]; exact ih
      · rw [if_neg hs]
        rcases hb : transport i with _ | _
        · simpa [isSendOrSleep, List.filter_cons, sendThenSleep] using ih
        · simpa [isSendOrSleep, List.filter_cons, sendThenSleep] using ih

/-- When every re-check reports the row still pending, the send attempts of
a campaign trace are exactly one attempt per snapshot contact in order. -/
theorem filter_isSend_campaignLoop
    (hpend : ∀ j, (recheck j).map Contact.isSent = some false) :
    ∀ {i : Nat} {cs : List Contact},
      (campaignLoop pe mp t un recheck transport i cs).filter isSend =
        attemptEvents pe mp t un transport i cs := by
  intro i cs
  induction cs generalizing i with
  | nil => simp [campaignLoop, attemptEvents]
  | cons c rest ih =>
    have h := hpend i
    rcases hcur : recheck i with _ | cur
    · rw [hcur] at h; simp at h
    · rw [hcur] at h
      have hs : cur.isSent = false := by simpa using h
      simp only [campaignLoop, hcur, hs]
      rcases hb : transport i with _ | _
      · simpa [isSend, attemptEvents, List.filter_cons, hb] using ih
      · simpa [isSend, attemptEvents, List.filter_cons, hb] using ih

/-- Membership of a send event in the expected attempt sequence, by
position. -/
theorem send_mem_attemptEvents {cid : Nat} {req : SendEmailRequest} {ok : Bool} :
    ∀ {i : Nat} {cs : List Contact},
      (Event.send cid req ok ∈ attemptEvents pe mp t un transport i cs ↔
        ∃ j c0, cs[j]? = some c0 ∧ cid = c0.id ∧
          req = campaignRequest pe mp t un c0 ∧ ok = transport (i + j)) := by
  intro i cs
  induction cs generalizing i with
  | nil => simp [attemptEvents]
  | cons c rest ih =>
    simp only [attemptEvents, List.mem_cons, Event.send.injEq]
    constructor
    · intro h
      rcases h with ⟨h1, h2, h3⟩ | h
      · exact ⟨0, c, by simp, h1, h2, by simpa using h3⟩
      · rcases ih.1 h with ⟨j, c0, hj, hcid, hreq, hok⟩
        refine ⟨j + 1, c0, by simpa using hj, hcid, hreq, ?_⟩
        have harith : i + 1 + j = i + (j + 1) := by omega
        rwa [harith] at hok
    · intro h
      rcases h with ⟨j, c0, hj, hcid, hreq, hok⟩
      cases j with
      | zero =>
        have hc : c = c0 := by simpa using hj
        subst hc
        exact Or.inl ⟨hcid, hreq, by simpa using hok⟩
      | succ j2 =>
        refine Or.inr (ih.2 ⟨j2, c0, by simpa using hj, hcid, hreq, ?_⟩)
        have harith : i + (j2 + 1) = i + 1 + j2 := by omega
        rwa [harith] at hok

/-- When the transport accepts every message, the synchronous send-to-all
loop attempts every contact of the list (whatever its stored delivery
state) and reports success. -/
theorem sendToAllLoop_all_success {req : SendEmailRequest} {total : Nat}
    (h : ∀ j, transport j = true) :
    ∀ {i : Nat} {cs : List Contact},
      (sendToAllLoop req transport total i cs).1.filter isSend =
          cs.map (fun c => Event.send c.id { req with recipientEmail := c.email } true) ∧
        (sendToAllLoop req transport total i cs).2 = Except.ok () := by
  intro i cs
  induction cs generalizing i with
  | nil => simp [sendToAllLoop]
  | cons c rest ih =>
    have hi := h i
    by_cases hlast : i < total - 1
    · simpa [sendToAllLoop, hi, hlast, isSend, List.filter_cons] using ih
    · simpa [sendToAllLoop, hi, hlast, isSend, List.filter_cons] using ih

/-- When the transport fails first at offset `k` into the remaining list,
the synchronous send-to-all loop attempts exactly the contacts up to and
including position `k` and returns the failure. -/
theorem sendToAllLoop_fail_at {req : SendEmailRequest} {total : Nat} :
    ∀ {i k : Nat} {cs : List Contact}, k < cs.length →
      (∀ j, j < k → transport (i + j) = true) → transport (i + k) = false →
      (sendToAllLoop req transport total i cs).1.filter isSend =
          (cs.take k).map (fun c => Event.send c.id { req with recipientEmail := c.email } true)
            ++ ((cs.drop k).take 1).map
              (fun c => Event.send c.id { req with recipientEmail := c.email } false) ∧
        ∃ msg, (sendToAllLoop req transport total i cs).2 = Except.error msg := by
  intro i k cs
  induction cs generalizing i k with
  | nil => intro hk; simp at hk
  | cons c rest ih =>
    intro hk hlt hfail
    cases k with
    | zero =>
      have h0 : transport i = false := by simpa using hfail
      simp [sendToAllLoop, h0, isSend, List.filter_cons]
    | succ k2 =>
      have h0 : transport i = true := by simpa using hlt 0 (Nat.succ_pos _)
      have hlt2 : ∀ j, j < k2 → transport (i + 1 + j) = true := by
        intro j hj
        have harith : i + 1 + j = i + (j + 1) := by omega
        rw [harith]
        exact hlt (j + 1) (by omega)
      have hfail2 : transport (i + 1 + k2) = false := by
        have harith : i + 1 + k2 = i + (k2 + 1) := by omega
        rwa [harith]
      have ih2 := ih (by simpa using hk) hlt2 hfail2
      by_cases hlast : i < total - 1
      · simpa [sendToAllLoop, h0, hlast, isSend, List.filter_cons] using ih2
      · simpa [sendToAllLoop, h0, hlast, isSend, List.filter_cons] using ih2

/-- Every sleep of a campaign trace has the campaign pacing duration. -/
theorem sleep_mem_campaignLoop {d : Nat} :
    ∀ {i : Nat} {cs : List Contact},
      Event.sleep d ∈ campaignLoop pe mp t un recheck transport i cs →
      d = campaignDelaySeconds := by
  intro i cs
  induction cs generalizing i with
  | nil => simp [campaignLoop]
  | cons c rest ih =>
    intro hmem
    rcases hre : recheck i with _ | cur
    · simp only [campaignLoop, hre] at hmem
      exact ih hmem
    · simp only [campaignLoop, hre] at hmem
      by_cases hs : cur.isSent
      · rw [if_pos hs] at hmem
        exact ih hmem
      · rw [if_neg hs] at hmem
        rcases List.mem_cons.1 hmem with hhead | htail
        · cases hhead
        · rcases List.mem_append.1 htail with hupd | hrest
          · rcases hb : transport i with _ | _ <;> rw [hb] at hupd <;> simp at hupd
          · rcases List.mem_cons.1 hrest with hsl | hrest2
            · injection hsl
            · exact ih hrest2

/-- Every sleep of a synchronous send-to-all trace has the short pacing
duration. -/
theorem sleep_mem_sendToAllLoop {req : SendEmailRequest} {total d : Nat} :
    ∀ {i : Nat} {cs : List Contact},
      Event.sleep d ∈ (sendToAllLoop req transport total i cs).1 →
      d = sendToAllDelaySeconds := by
  intro i cs
  induction cs generalizing i with
  | nil => simp [sendToAllLoop]
  | cons c rest ih =>
    intro hmem
    rcases hb : transport i with _ | _
    · simp only [sendToAllLoop, hb] at hmem
      simp at hmem
    · simp only [sendToAllLoop, hb, reduceIte] at hmem
      rcases List.mem_cons.1 hmem with hhead | htail
      · cases hhead
      · rcases List.mem_append.1 htail with hsl | hrest
        · by_cases hlast : i < total - 1
          · rw [if_pos hlast] at hsl
            have := List.mem_singleton.1 hsl
            injection this
          · rw [if_neg hlast] at hsl
            simp at hsl
        · exact ih hrest

end Lemmas

/-- C7 (confirmed): immediately before each send the runner re-reads the
recipient row, and a row already marked Sent at that point is skipped
without composing or sending anything and without touching stored state:
the run over the skipped recipient equals the run over the remaining
recipients. -/
theorem claim7_recheck_skip (pe mp un : String) (t : Template)
    (recheck : Nat → Option Contact) (transport : Nat → Bool)
    (i : Nat) (c cur : Contact) (rest : List Contact)
    (hre : recheck i = some cur) (hs : cur.isSent = true) :
    campaignLoop pe mp t un recheck transport i (c :: rest) =
      campaignLoop pe mp t un recheck transport (i + 1) rest := by
  simp [campaignLoop, hre, hs]

/-- Witness for C7 at a concrete run: the re-check observes the row marked
Sent, so the recipient is skipped and the trace is empty. -/
theorem claim7_recheck_skip_check :
    (fun _ : Nat => some annSent) 0 = some annSent ∧ annSent.isSent = true ∧
      campaignLoop "pe" "mp" demoTemplate "HR" (fun _ => some annSent) (fun _ => true) 0
        [annContact] =
        campaignLoop "pe" "mp" demoTemplate "HR" (fun _ => some annSent) (fun _ => true) 1 [] :=
  ⟨rfl, rfl,
    claim7_recheck_skip "pe" "mp" "HR" demoTemplate (fun _ => some annSent) (fun _ => true)
      0 annContact annSent [] rfl rfl⟩

/-- C5 counterexample: in a one-recipient campaign run with a successful
delivery, the trace ends with the pacing sleep — the delay is applied after
the last attempt, contradicting the claim that it is applied only between
consecutive attempts. -/
theorem claim5_delay_after_last_cex :
    campaignLoop "pe" "mp" demoTemplate "HR" (fun _ => some annContact) (fun _ => true) 0
        [annContact] =
      [Event.send 1 (campaignRequest "pe" "mp" demoTemplate "HR" annContact) true,
       Event.markSent 1, Event.sleep campaignDelaySeconds] ∧
      (campaignLoop "pe" "mp" demoTemplate "HR" (fun _ => some annContact) (fun _ => true) 0
        [annContact]).getLast? = some (Event.sleep campaignDelaySeconds) := by
  decide

/-- C5 as amended: restricted to sends and sleeps, every campaign trace is
a sequence of attempt-then-pacing-sleep pairs with the campaign delay.
Hence no sleep precedes the first attempt and consecutive attempts are
separated by the full delay, but — contrary to the original claim — a
pacing sleep also follows the last attempt; skipped recipients incur no
sleep. -/
theorem claim5_pacing_amended (pe mp un : String) (t : Template)
    (recheck : Nat → Option Contact) (transport : Nat → Bool) (cs : List Contact) :
    sendThenSleep ((campaignLoop pe mp t un recheck transport 0 cs).filter isSendOrSleep)
      = true :=
  sendThenSleep_campaignLoop

/-- C6 counterexample: a campaign run sleeps 120 seconds between sends
while the synchronous send-to-all path sleeps 2 seconds, so the two pacing
delays are not equal. -/
theorem claim6_delays_differ_cex :
    (campaignLoop "pe" "mp" demoTemplate "HR" (fun _ => some annContact) (fun _ => true) 0
        [annContact, bobContact]).filter isSleep =
        [Event.sleep campaignDelaySeconds, Event.sleep campaignDelaySeconds] ∧
      (sendEmailForUser (some demoUser) [annContact, bobContact] demoSendAllReq
          (fun _ => true)).1.filter isSleep = [Event.sleep sendToAllDelaySeconds] ∧
      campaignDelaySeconds = 120 ∧ sendToAllDelaySeconds = 2 ∧
      campaignDelaySeconds ≠ sendToAllDelaySeconds := by
  decide

/-- C6 as amended: the two paths pace with different constants — every
sleep of a detached campaign trace is 120 seconds (`2 * time.Minute`) and
every sleep of a synchronous send-to-all trace is 2 seconds
(`2 * time.Second`). -/
theorem claim6_delay_values (pe mp un : String) (t : Template)
    (recheck : Nat → Option Contact) (transport : Nat → Bool) (cs : List Contact)
    (req : SendEmailRequest) (total : Nat) :
    campaignDelaySeconds = 120 ∧ sendToAllDelaySeconds = 2 ∧
      campaignDelaySeconds ≠ sendToAllDelaySeconds ∧
      (∀ d, Event.sleep d ∈ campaignLoop pe mp t un recheck transport 0 cs →
        d = campaignDelaySeconds) ∧
      (∀ d, Event.sleep d ∈ (sendToAllLoop req transport total 0 cs).1 →
        d = sendToAllDelaySeconds) :=
  ⟨rfl, rfl, by decide, fun _ h => sleep_mem_campaignLoop h,
   fun _ h => sleep_mem_sendToAllLoop h⟩

/-- Witness for C6-as-amended at a concrete run: the sleep occurring in a
two-recipient campaign trace has the campaign duration. -/
theorem claim6_delay_values_check :
    (120 : Nat) = campaignDelaySeconds :=
  ((claim6_delay_values "pe" "mp" "HR" demoTemplate (fun _ => some annContact)
        (fun _ => true) [annContact, bobContact] demoSendAllReq 2).2.2.2.1
      120 (by decide)).symm

/-- C8 counterexample: with template subject `Hello {name}` and recipient
Ann, the message handed to the transport carries the subject verbatim, with
the token unsubstituted — subject tokens are not replaced the way body
tokens are. -/
theorem claim8_subject_verbatim_cex :
    campaignLoop "pe" "mp" { subject := "Hello {name}", body := "Hi {name}" } "HR"
        (fun _ => some annContact) (fun _ => true) 0 [annContact] =
      [Event.send 1
        { senderEmail := "pe", senderPassword := "mp", recipientEmail := "ann@acme.test",
          subject := "Hello {name}", body := "Hi Ann", sendToAll := false } true,
       Event.markSent 1, Event.sleep campaignDelaySeconds] ∧
      ("Hello {name}" : String) ≠ "Hello Ann" := by
  decide

/-- C8 as amended: the subject of every message sent by a campaign run is
the template subject taken verbatim — no placeholder substitution is
applied to it (only the body is substituted). -/
theorem claim8_subject_verbatim (pe mp un : String) (t : Template)
    (recheck : Nat → Option Contact) (transport : Nat → Bool) (i : Nat)
    (cs : List Contact) (cid : Nat) (req : SendEmailRequest) (ok : Bool)
    (hmem : Event.send cid req ok ∈ campaignLoop pe mp t un recheck transport i cs) :
    req.subject = t.subject := by
  rcases send_mem_campaignLoop hmem with ⟨c0, _, hreq, _⟩
  rw [hreq]; rfl

/-- Witness for C8-as-amended: the concrete send of a one-recipient run
carries the template subject verbatim. -/
theorem claim8_subject_verbatim_check :
    (campaignRequest "pe" "mp" demoTemplate "HR" annContact).subject =
      demoTemplate.subject :=
  claim8_subject_verbatim "pe" "mp" "HR" demoTemplate (fun _ => some annContact)
    (fun _ => true) 0 [annContact] 1
    (campaignRequest "pe" "mp" demoTemplate "HR" annContact) true (by decide)

/-- C9 (confirmed): every message body sent by a campaign run is the
template body with every occurrence of the name token replaced by the
recipient's name, the company token by the recipient's company and the
owner-name token by the owner's display name, by literal left-to-right
substring substitution; unrecognized tokens stay verbatim, and the spec's
concrete example composes to `Hi Ann at Acme`. -/
theorem claim9_compose_substitution (pe mp un : String) (t : Template)
    (recheck : Nat → Option Contact) (transport : Nat → Bool) (i : Nat)
    (cs : List Contact) (cid : Nat) (req : SendEmailRequest) (ok : Bool)
    (hmem : Event.send cid req ok ∈ campaignLoop pe mp t un recheck transport i cs) :
    (∃ c ∈ cs, cid = c.id ∧ req.recipientEmail = c.email ∧
        req.body = composeBody t un c) ∧
      composeBody { subject := "s", body := "Hi {name} at {company}" } "HR" annContact =
        "Hi Ann at Acme" ∧
      composeBody { subject := "s", body := "Keep {other} {tokens}" } "HR" annContact =
        "Keep {other} {tokens}" := by
  refine ⟨?_, by decide, by decide⟩
  rcases send_mem_campaignLoop hmem with ⟨c0, hc0, hreq, hcid⟩
  exact ⟨c0, hc0, hcid, by rw [hreq]; rfl, by rw [hreq]; rfl⟩

/-- Witness for C9 at a concrete one-recipient run. -/
theorem claim9_compose_substitution_check :
    ∃ c ∈ [annContact],
      (1 : Nat) = c.id ∧
        (campaignRequest "pe" "mp" demoTemplate "HR" annContact).recipientEmail = c.email ∧
        (campaignRequest "pe" "mp" demoTemplate "HR" annContact).body =
          composeBody demoTemplate "HR" c :=
  (claim9_compose_substitution "pe" "mp" "HR" demoTemplate (fun _ => some annContact)
      (fun _ => true) 0 [annContact] 1
      (campaignRequest "pe" "mp" demoTemplate "HR" annContact) true (by decide)).1

/-- C1 (confirmed): in a campaign run, an `IsSent` update is recorded for a
contact id exactly when the transport reported success on a send attempt
for that id (no batch marking); replaying the run's writes over any stored
table never clears the Sent flag (so the state never reverts and, being
Boolean, transitions at most once, Pending to Sent), and ends with a
contact Sent exactly when it started Sent or one of its attempts
succeeded. -/
theorem claim1_sent_iff_delivery (pe mp un : String) (t : Template)
    (recheck : Nat → Option Contact) (transport : Nat → Bool)
    (cs : List Contact) (db : Nat → Bool) (cid : Nat) :
    (Event.markSent cid ∈ campaignLoop pe mp t un recheck transport 0 cs ↔
        ∃ req, Event.send cid req true ∈ campaignLoop pe mp t un recheck transport 0 cs) ∧
      (db cid = true →
        applyEvents db (campaignLoop pe mp t un recheck transport 0 cs) cid = true) ∧
      (applyEvents db (campaignLoop pe mp t un recheck transport 0 cs) cid = true ↔
        (db cid = true ∨
          ∃ req, Event.send cid req true ∈ campaignLoop pe mp t un recheck transport 0 cs)) := by
  refine ⟨markSent_iff_send_true, ?_, ?_⟩
  · intro h
    exact applyEvents_eq_true_iff.2 (Or.inl h)
  · rw [applyEvents_eq_true_iff, markSent_iff_send_true]

/-- Witness for C1 at a one-recipient run with a successful delivery: the
stored state ends up Sent. -/
theorem claim1_sent_iff_delivery_check :
    applyEvents (fun _ => false)
      (campaignLoop "pe" "mp" demoTemplate "HR" (fun _ => some annContact) (fun _ => true) 0
        [annContact]) 1 = true :=
  (claim1_sent_iff_delivery "pe" "mp" "HR" demoTemplate (fun _ => some annContact)
        (fun _ => true) [annContact] (fun _ => false) 1).2.2.2
    (Or.inr ⟨campaignRequest "pe" "mp" demoTemplate "HR" annContact, by decide⟩)

/-- C2 (confirmed): in a detached run over pending recipients with distinct
ids where the transport fails exactly at position `k`, every recipient is
attempted exactly once in list order (the failure aborts nothing and is not
retried), no `IsSent` update is recorded for the failing recipient, and its
stored state stays Pending. -/
theorem claim2_failure_isolated (pe mp un : String) (t : Template)
    (recheck : Nat → Option Contact) (transport : Nat → Bool)
    (cs : List Contact) (db : Nat → Bool) (k : Nat) (ck : Contact)
    (hpend : ∀ j, (recheck j).map Contact.isSent = some false)
    (hnd : (cs.map Contact.id).Nodup)
    (hck : cs[k]? = some ck)
    (hfail : transport k = false)
    (hres : ∀ j, j ≠ k → transport j = true)
    (hdb : db ck.id = false) :
    (campaignLoop pe mp t un recheck transport 0 cs).filter isSend =
        attemptEvents pe mp t un transport 0 cs ∧
      Event.markSent ck.id ∉ campaignLoop pe mp t un recheck transport 0 cs ∧
      applyEvents db (campaignLoop pe mp t un recheck transport 0 cs) ck.id = false := by
  have hnot : Event.markSent ck.id ∉ campaignLoop pe mp t un recheck transport 0 cs := by
    intro hmem
    rcases markSent_iff_send_true.1 hmem with ⟨req, hsend⟩
    have hsf : Event.send ck.id req true ∈
        (campaignLoop pe mp t un recheck transport 0 cs).filter isSend :=
      List.mem_filter.2 ⟨hsend, rfl⟩
    rw [filter_isSend_campaignLoop hpend] at hsf
    rcases send_mem_attemptEvents.1 hsf with ⟨j, c0, hj, hcid, _, hok⟩
    have hjlen : j < cs.length := by
      rcases List.getElem?_eq_some_iff.1 hj with ⟨h, _⟩
      exact h
    by_cases hjk : j = k
    · subst hjk
      rw [Nat.zero_add] at hok
      rw [hfail] at hok
      cases hok
    · have hmapj : (cs.map Contact.id)[j]? = some ck.id := by
        rw [List.getElem?_map, hj]
        simp [hcid]
      have hmapk : (cs.map Contact.id)[k]? = some ck.id := by
        rw [List.getElem?_map, hck]
        simp
      exact hjk (List.getElem?_inj (by simpa using hjlen) hnd (hmapj.trans hmapk.symm))
  refine ⟨filter_isSend_campaignLoop hpend, hnot, ?_⟩
  cases hval : applyEvents db (campaignLoop pe mp t un recheck transport 0 cs) ck.id with
  | false => rfl
  | true =>
    exfalso
    rcases applyEvents_eq_true_iff.1 hval with h | h
    · rw [hdb] at h; cases h
    · exact hnot h

/-- Witness for C2: five pending recipients, delivery failing only for the
third; all five are attempted and the third stays Pending. -/
theorem claim2_failure_isolated_check :
    (campaignLoop "pe" "mp" demoTemplate "HR" (fun _ => some annContact)
          (fun j => decide (j ≠ 2)) 0 fiveContacts).filter isSend =
        attemptEvents "pe" "mp" demoTemplate "HR" (fun j => decide (j ≠ 2)) 0 fiveContacts ∧
      Event.markSent 3 ∉ campaignLoop "pe" "mp" demoTemplate "HR" (fun _ => some annContact)
          (fun j => decide (j ≠ 2)) 0 fiveContacts ∧
      applyEvents (fun _ => false)
          (campaignLoop "pe" "mp" demoTemplate "HR" (fun _ => some annContact)
            (fun j => decide (j ≠ 2)) 0 fiveContacts) 3 = false :=
  claim2_failure_isolated "pe" "mp" "HR" demoTemplate (fun _ => some annContact)
    (fun j => decide (j ≠ 2)) fiveContacts (fun _ => false) 2
    { id := 3, name := "R3", companyName := "C3", email := "r3@x.test", isSent := false }
    (fun _ => rfl) (by decide) (by decide) (by decide)
    (fun j hj => decide_eq_true hj) rfl

/-- C3 (confirmed): the synchronous `SendToAll` path iterates the owner's
full contact list (no delivery-state filter): when the transport accepts
everything, every contact — whatever its stored state — receives exactly
one attempt and the call succeeds; and when the transport first fails at
position `k`, exactly the contacts up to and including `k` are attempted,
later contacts are never attempted, and the call returns that failure. -/
theorem claim3_sendToAll_aborts_on_failure (u : User) (contacts : List Contact)
    (req : SendEmailRequest) (transport : Nat → Bool) (k : Nat)
    (hpe : u.professionalEmail.getD "" ≠ "")
    (hmp : u.mailAppPassword.getD "" ≠ "")
    (hall : req.sendToAll = true) :
    ((∀ j, transport j = true) →
        (sendEmailForUser (some u) contacts req transport).1.filter isSend =
            contacts.map (fun c =>
              Event.send c.id
                { req with senderEmail := u.professionalEmail.getD ""
                           senderPassword := u.mailAppPassword.getD ""
                           recipientEmail := c.email } true) ∧
          (sendEmailForUser (some u) contacts req transport).2 = Except.ok ()) ∧
      (k < contacts.length → (∀ j, j < k → transport j = true) → transport k = false →
        (sendEmailForUser (some u) contacts req transport).1.filter isSend =
            (contacts.take k).map (fun c =>
              Event.send c.id
                { req with senderEmail := u.professionalEmail.getD ""
                           senderPassword := u.mailAppPassword.getD ""
                           recipientEmail := c.email } true)
              ++ ((contacts.drop k).take 1).map (fun c =>
                Event.send c.id
                  { req with senderEmail := u.professionalEmail.getD ""
                             senderPassword := u.mailAppPassword.getD ""
                             recipientEmail := c.email } false) ∧
          ∃ msg, (sendEmailForUser (some u) contacts req transport).2 = Except.error msg) := by
  have hred : sendEmailForUser (some u) contacts req transport =
      sendToAllLoop
        { req with senderEmail := u.professionalEmail.getD ""
                   senderPassword := u.mailAppPassword.getD "" }
        transport contacts.length 0 contacts := by
    simp [sendEmailForUser, hpe, hmp, hall]
  rw [hred]
  constructor
  · intro hok
    exact sendToAllLoop_all_success hok
  · intro hk hlt hfail
    exact sendToAllLoop_fail_at hk (by simpa using hlt) (by simpa using hfail)

/-- Witness for C3: two contacts (the first already marked Sent), transport
failing at position 0 — only the first contact is attempted and the call
errors. -/
theorem claim3_sendToAll_aborts_on_failure_check :
    (sendEmailForUser (some demoUser) [annSent, bobContact] demoSendAllReq
          (fun _ => false)).1.filter isSend =
        [Event.send 1
          { demoSendAllReq with senderEmail := "hr@corp.test", senderPassword := "pw",
                                recipientEmail := "ann@acme.test" } false] ∧
      ∃ msg, (sendEmailForUser (some demoUser) [annSent, bobContact] demoSendAllReq
          (fun _ => false)).2 = Except.error msg := by
  have h := (claim3_sendToAll_aborts_on_failure demoUser [annSent, bobContact]
      demoSendAllReq (fun _ => false) 0 (by decide) (by decide) rfl).2
      (by decide) (fun j hj => absurd hj (Nat.not_lt_zero j)) rfl
  simpa using h

/-- C4 (confirmed): `StartEmailCampaign` emits no send before returning;
it returns an error when the user row cannot be fetched, when either
credential is missing or empty, or when the template is absent; and with
valid credentials and template but no pending recipient it returns success
without spawning a job. -/
theorem claim4_start_preconditions (user : Option User) (template : Option Template)
    (contacts : List Contact) :
    (startEmailCampaign user template contacts).1 = [] ∧
      ((user = none ∨
          (∃ u, user = some u ∧
            (u.professionalEmail.getD "" = "" ∨ u.mailAppPassword.getD "" = "")) ∨
          template = none) →
        ∃ msg, (startEmailCampaign user template contacts).2 = Except.error msg) ∧
      (∀ u t2, user = some u → template = some t2 →
        u.professionalEmail.getD "" ≠ "" → u.mailAppPassword.getD "" ≠ "" →
        contacts.filter (fun c => !c.isSent) = [] →
        (startEmailCampaign user template contacts).2 = Except.ok none) := by
  refine ⟨?_, ?_, ?_⟩
  · cases user with
    | none => rfl
    | some u =>
      by_cases hc : u.professionalEmail.getD "" = "" ∨ u.mailAppPassword.getD "" = ""
      · simp [startEmailCampaign, hc]
      · cases template with
        | none => simp [startEmailCampaign, hc]
        | some t2 =>
          by_cases hp : (contacts.filter (fun c => !c.isSent)).isEmpty <;>
            simp [startEmailCampaign, hc, hp]
  · intro h
    cases user with
    | none => exact ⟨"failed to fetch user", rfl⟩
    | some u =>
      rcases h with h | ⟨u2, hu2, hc⟩ | h
      · cases h
      · have hu : u2 = u := by injection hu2 with h2; exact h2.symm
        subst hu
        exact ⟨"user email credentials not configured", by simp [startEmailCampaign, hc]⟩
      · subst h
        by_cases hc : u.professionalEmail.getD "" = "" ∨ u.mailAppPassword.getD "" = ""
        · exact ⟨"user email credentials not configured", by simp [startEmailCampaign, hc]⟩
        · exact ⟨"failed to fetch template", by simp [startEmailCampaign, hc]⟩
  · intro u t2 hu ht hpe hmp hpend
    subst hu; subst ht
    have hc : ¬(u.professionalEmail.getD "" = "" ∨ u.mailAppPassword.getD "" = "") := by
      intro h; rcases h with h | h
      · exact hpe h
      · exact hmp h
    simp [startEmailCampaign, hc, hpend]

/-- Witness for C4: a user with credentials, a template, and a single
already-sent contact — campaign start succeeds as a no-op. -/
theorem claim4_start_preconditions_check :
    (startEmailCampaign (some demoUser) (some demoTemplate) [annSent]).2 = Except.ok none :=
  (claim4_start_preconditions (some demoUser) (some demoTemplate) [annSent]).2.2
    demoUser demoTemplate rfl rfl (by decide) (by decide) (by decide)

/-- C10 (confirmed): the composed messages and destination addresses of a
campaign run depend only on the snapshot loaded at campaign start; the
pre-send re-read influences nothing but the skip decision through its error
status and Sent flag, so two runs over the same snapshot whose re-reads
agree on those — however the other re-read fields were concurrently
edited — produce identical traces. -/
theorem claim10_snapshot_determines_sends (pe mp un : String) (t : Template)
    (r1 r2 : Nat → Option Contact) (transport : Nat → Bool) (i : Nat) (cs : List Contact)
    (h : ∀ j, (r1 j).map Contact.isSent = (r2 j).map Contact.isSent) :
    campaignLoop pe mp t un r1 transport i cs =
      campaignLoop pe mp t un r2 transport i cs := by
  induction cs generalizing i with
  | nil => rfl
  | cons c rest ih =>
    have hj := h i
    rcases h1 : r1 i with _ | c1
    · rw [h1] at hj
      rcases h2 : r2 i with _ | c2
      · simp only [campaignLoop, h1, h2]
        exact ih _
      · rw [h2] at hj; simp at hj
    · rw [h1] at hj
      rcases h2 : r2 i with _ | c2
      · rw [h2] at hj; simp at hj
      · rw [h2] at hj
        have hss : c1.isSent = c2.isSent := by simpa using hj
        simp only [campaignLoop, h1, h2, hss]
        by_cases hs : c2.isSent
        · rw [if_pos hs, if_pos hs]
          exact ih _
        · rw [if_neg hs, if_neg hs]
          rw [ih _]

/-- Witness for C10: two re-read oracles observing entirely different
contact rows that agree on the Sent flag yield identical traces. -/
theorem claim10_snapshot_determines_sends_check :
    campaignLoop "pe" "mp" demoTemplate "HR" (fun _ => some annContact) (fun _ => true) 0
        [bobContact] =
      campaignLoop "pe" "mp" demoTemplate "HR" (fun _ => some zedContact) (fun _ => true) 0
        [bobContact] :=
  claim10_snapshot_determines_sends "pe" "mp" "HR" demoTemplate (fun _ => some annContact)
    (fun _ => some zedContact) (fun _ => true) 0 [bobContact] (fun _ => rfl)

end HrMsg
